import Mathlib

/-!
Verification of the realtime voice/text agent's event-orchestration core
(`samples/langchain_openai_voice/__init__.py`): the tool-call executor,
the orchestrator's per-event routing, and the stream merger.

JSON values are embedded as an inductive type; `json.loads` is embedded as
an executable recursive-descent parser `jsonParse` over integers, strings,
booleans, null, arrays and objects; `json.dumps` as `Json.dumps`.
Python exceptions become the `PyErr` error type threaded through `Except`.
-/

/-- Embedded JSON values (Python objects produced by json.loads). Numbers are
modelled as integers; none of the verified code paths involve floats. -/
inductive Json where
  | null : Json
  | bool (b : Bool) : Json
  | num (n : Int) : Json
  | str (s : String) : Json
  | arr (xs : List Json) : Json
  | obj (fields : List (String × Json)) : Json

/-- First-match lookup in an association list (Python dict access). -/
def alistLookup {β : Type} (k : String) : List (String × β) → Option β
  | [] => none
  | (k2, v) :: rest => if k2 = k then some v else alistLookup k rest

/-- Field access on a JSON object; `none` when the value is not an object or
the key is absent. -/
def Json.getField (j : Json) (k : String) : Option Json :=
  match j with
  | .obj fs => alistLookup k fs
  | _ => none

/-- Whether a JSON value is an object (Python `isinstance(x, dict)`). -/
def Json.isObj : Json → Bool
  | .obj _ => true
  | _ => false

/-- Python truthiness of a decoded JSON value (`if x:`). -/
def Json.truthy : Json → Bool
  | .null => false
  | .bool b => b
  | .num n => decide (n ≠ 0)
  | .str s => decide (s ≠ "")
  | .arr xs => !xs.isEmpty
  | .obj fs => !fs.isEmpty

def lbrace : Char := Char.ofNat 123

def rbrace : Char := Char.ofNat 125

def squote : Char := Char.ofNat 39

/-- JSON whitespace. -/
def isWs (c : Char) : Bool :=
  c == ' ' || c == '\n' || c == '\t' || c == '\r'

/-- Drop leading whitespace. -/
def skipWs : List Char → List Char
  | [] => []
  | c :: rest => if isWs c then skipWs rest else c :: rest

/-- Match a literal suffix such as `rue` of `true`; returns the remainder. -/
def dropLit : List Char → List Char → Option (List Char)
  | [], s => some s
  | _ :: _, [] => none
  | c :: cs, d :: ds => if c == d then dropLit cs ds else none

/-- Parse the body of a JSON string after the opening quote, handling the
simple escape sequences; returns the string and the remainder after the
closing quote. -/
def parseStringBody : List Char → Option (String × List Char)
  | [] => none
  | c :: rest =>
    if c == '"' then some ("", rest)
    else if c == '\\' then
      match rest with
      | [] => none
      | e :: rest2 =>
        let dc? : Option Char :=
          if e == '"' then some '"'
          else if e == '\\' then some '\\'
          else if e == '/' then some '/'
          else if e == 'n' then some '\n'
          else if e == 't' then some '\t'
          else if e == 'r' then some '\r'
          else none
        match dc? with
        | none => none
        | some dc =>
          match parseStringBody rest2 with
          | some (s, rem) => some (String.mk (dc :: s.data), rem)
          | none => none
    else
      match parseStringBody rest with
      | some (s, rem) => some (String.mk (c :: s.data), rem)
      | none => none

/-- Accumulate decimal digits. -/
def digitsToNat (acc : Nat) : List Char → (Nat × List Char)
  | [] => (acc, [])
  | c :: rest =>
    if c.isDigit then digitsToNat (acc * 10 + (c.toNat - 48)) rest
    else (acc, c :: rest)

mutual

/-- Parse one JSON value; fuel-indexed recursive descent. -/
def parseVal : Nat → List Char → Option (Json × List Char)
  | 0, _ => none
  | fuel + 1, s0 =>
    match skipWs s0 with
    | [] => none
    | c :: rest =>
      if c == '"' then
        match parseStringBody rest with
        | some (s, rem) => some (.str s, rem)
        | none => none
      else if c == '-' then
        match rest with
        | d :: _ =>
          if d.isDigit then
            match digitsToNat 0 rest with
            | (n, rem) => some (.num (-(Int.ofNat n)), rem)
          else none
        | [] => none
      else if c.isDigit then
        match digitsToNat 0 (c :: rest) with
        | (n, rem) => some (.num (Int.ofNat n), rem)
      else if c == 't' then
        (dropLit "rue".data rest).map (fun r => (Json.bool true, r))
      else if c == 'f' then
        (dropLit "alse".data rest).map (fun r => (Json.bool false, r))
      else if c == 'n' then
        (dropLit "ull".data rest).map (fun r => (Json.null, r))
      else if c == '[' then
        match skipWs rest with
        | d :: rem => if d == ']' then some (.arr [], rem) else parseArrItems fuel rest []
        | [] => none
      else if c == lbrace then
        match skipWs rest with
        | d :: rem => if d == rbrace then some (.obj [], rem) else parseObjItems fuel rest []
        | [] => none
      else none

/-- Parse array elements after `[` or `,`; `acc` holds prior elements reversed. -/
def parseArrItems : Nat → List Char → List Json → Option (Json × List Char)
  | 0, _, _ => none
  | fuel + 1, s, acc =>
    match parseVal fuel s with
    | none => none
    | some (v, rem) =>
      match skipWs rem with
      | c :: rem2 =>
        if c == ',' then parseArrItems fuel rem2 (v :: acc)
        else if c == ']' then some (.arr (v :: acc).reverse, rem2)
        else none
      | [] => none

/-- Parse object members after the opening brace or `,`. -/
def parseObjItems : Nat → List Char → List (String × Json) → Option (Json × List Char)
  | 0, _, _ => none
  | fuel + 1, s, acc =>
    match skipWs s with
    | c :: rest =>
      if c == '"' then
        match parseStringBody rest with
        | none => none
        | some (k, rem) =>
          match skipWs rem with
          | c2 :: rem2 =>
            if c2 == ':' then
              match parseVal fuel rem2 with
              | none => none
              | some (v, rem3) =>
                match skipWs rem3 with
                | c3 :: rem4 =>
                  if c3 == ',' then parseObjItems fuel rem4 ((k, v) :: acc)
                  else if c3 == rbrace then some (.obj ((k, v) :: acc).reverse, rem4)
                  else none
                | [] => none
            else none
          | [] => none
      else none
    | [] => none

end

/-- Embedding of Python `json.loads`: parse a whole string as one JSON value,
requiring only whitespace after it; `none` models `json.JSONDecodeError`. -/
def jsonParse (s : String) : Option Json :=
  match parseVal (s.length + 2) s.data with
  | some (v, rem) => if (skipWs rem).isEmpty then some v else none
  | none => none

/-- Escape one character for JSON string output. -/
def escChar (c : Char) : String :=
  if c == '"' then "\\\""
  else if c == '\\' then "\\\\"
  else if c == '\n' then "\\n"
  else if c == '\t' then "\\t"
  else if c == '\r' then "\\r"
  else String.mk [c]

/-- Render a string as a JSON string literal. -/
def quoteJsonStr (s : String) : String :=
  "\"" ++ String.join (s.data.map escChar) ++ "\""

mutual

/-- Embedding of Python `json.dumps` on decoded JSON values (default
separators). -/
def Json.dumps : Json → String
  | .null => "null"
  | .bool true => "true"
  | .bool false => "false"
  | .num n => toString n
  | .str s => quoteJsonStr s
  | .arr xs => "[" ++ dumpsList xs ++ "]"
  | .obj fs => String.mk [lbrace] ++ dumpsFields fs ++ String.mk [rbrace]

def dumpsList : List Json → String
  | [] => ""
  | [x] => Json.dumps x
  | x :: y :: rest => Json.dumps x ++ ", " ++ dumpsList (y :: rest)

def dumpsFields : List (String × Json) → String
  | [] => ""
  | [(k, v)] => quoteJsonStr k ++ ": " ++ Json.dumps v
  | (k, v) :: p :: rest =>
      quoteJsonStr k ++ ": " ++ Json.dumps v ++ ", " ++ dumpsFields (p :: rest)

end


/-- Python exceptions relevant to the embedded code. -/
inductive PyErr where
  | valueError (msg : String) : PyErr
  | keyError (key : String) : PyErr
  | typeError (msg : String) : PyErr
  | attributeError (msg : String) : PyErr
  | toolExc (msg : String) : PyErr

/-- Python subscript access `j[k]`: `KeyError` when the key is absent from a
dict, `TypeError` when the value is not a dict. -/
def subscript (j : Json) (k : String) : Except PyErr Json :=
  match j with
  | .obj fs =>
    match alistLookup k fs with
    | some v => .ok v
    | none => .error (.keyError k)
  | _ => .error (.typeError "object is not subscriptable")

/-- Python `j.get(k, d)` on a decoded value: default when the key is absent,
`AttributeError` when the value is not a dict. -/
def dictGet (j : Json) (k : String) (d : Json) : Except PyErr Json :=
  match j with
  | .obj fs => .ok ((alistLookup k fs).getD d)
  | _ => .error (.attributeError "no attribute get")

/-- Value returned by a tool invocation: either JSON-serializable or an
opaque Python object whose `str()` is recorded (the `json.dumps` TypeError
fallback in `run_tool`). -/
inductive PyVal where
  | jsonVal (j : Json) : PyVal
  | opaqueVal (r : String) : PyVal

/-- Serialization of a tool result in `run_tool`: `json.dumps(result)`,
falling back to `str(result)` on TypeError. -/
def dumpsPyVal : PyVal → String
  | .jsonVal j => Json.dumps j
  | .opaqueVal r => r

/-- A registered tool capability: `run` embeds `tool.ainvoke(args)`, whose
error case is a raised Python exception with the given message. -/
structure Tool where
  run : Json → Except String PyVal

/-- Python `str()` of a decoded JSON value, as used in f-string messages. -/
def pyStrOfJson : Json → String
  | .str s => s
  | .num n => toString n
  | .bool true => "True"
  | .bool false => "False"
  | .null => "None"
  | v => Json.dumps v

/-- Python `repr` of the list of registered tool names,
`list(self.tools_by_name.keys())`. -/
def pyReprNames (names : List String) : String :=
  "[" ++ String.intercalate ", "
    (names.map (fun n => String.mk [squote] ++ n ++ String.mk [squote])) ++ "]"

/-- The `ValueError` message for an unregistered tool name in
`_create_tool_call_task`. -/
def notFoundMsg (nm : Json) (tools : List (String × Tool)) : String :=
  "tool " ++ pyStrOfJson nm ++ " not found. Must be one of " ++
    pyReprNames (tools.map Prod.fst)

/-- The `ValueError` message for undecodable tool arguments in
`_create_tool_call_task`. -/
def parseFailMsg (argstr : String) : String :=
  "failed to parse arguments `" ++ argstr ++ "`. Must be valid JSON."

/-- The `ValueError` message of `add_tool_call` when the trigger future is
already resolved. -/
def conflictMsg : String := "Tool call adding already in progress"

/-- The result event dict built by `run_tool` (and, with an `Error:` output,
by the executor's error path). -/
def toolResultEvent (cid : Json) (outputStr : String) : Json :=
  .obj [("type", .str "conversation.item.create"),
        ("item", .obj [("id", cid), ("call_id", cid),
                       ("type", .str "function_call_output"),
                       ("output", .str outputStr)])]

/-- The error-tagged result event yielded by `output_iterator` when
`_create_tool_call_task` raises a `ValueError`. -/
def errorResultEvent (cid : Json) (emsg : String) : Json :=
  toolResultEvent cid ("Error: " ++ emsg)

/-- Eventual outcome of the spawned `run_tool` task: the result event, or the
exception the task raises. `tool_call["call_id"]` is only read after the tool
invocation has succeeded. -/
def runToolOutcome (tool : Tool) (args : Json) (tc : Json) : Except PyErr Json :=
  match tool.run args with
  | .error msg => .error (.toolExc msg)
  | .ok v =>
    match subscript tc "call_id" with
    | .error e => .error e
    | .ok cid => .ok (toolResultEvent cid (dumpsPyVal v))

/-- Embedding of `VoiceToolExecutor._create_tool_call_task`: resolve the tool
by name (`ValueError` when absent), decode the raw arguments (`ValueError`
when not valid JSON), and return the outcome of the spawned task. -/
def createToolCallTask (tools : List (String × Tool)) (tc : Json) :
    Except PyErr (Except PyErr Json) :=
  match subscript tc "name" with
  | .error e => .error e
  | .ok nameJ =>
    match (match nameJ with | .str n => alistLookup n tools | _ => none) with
    | none => .error (.valueError (notFoundMsg nameJ tools))
    | some tool =>
      match subscript tc "arguments" with
      | .error e => .error e
      | .ok argsJ =>
        match argsJ with
        | .str argstr =>
          match jsonParse argstr with
          | none => .error (.valueError (parseFailMsg argstr))
          | some args => .ok (runToolOutcome tool args tc)
        | _ => .error (.typeError "the JSON object must be str, bytes or bytearray")

/-- State of a `VoiceToolExecutor`: the single-slot trigger future
(`none` = fresh/unresolved, `some tc` = resolved with an armed call) and the
eventual outcomes of the in-flight `run_tool` tasks. -/
structure ExecState where
  triggerFuture : Option Json
  inflight : List (Except PyErr Json)

/-- Embedding of `VoiceToolExecutor.add_tool_call`: raises `ValueError` when
the trigger future is already resolved, otherwise resolves it with the call. -/
def add_tool_call (st : ExecState) (tc : Json) : Except PyErr ExecState :=
  if st.triggerFuture.isSome then .error (.valueError conflictMsg)
  else .ok { st with triggerFuture := some tc }

/-- Which awaited task of `output_iterator` completed first in this
iteration of its wait loop. -/
inductive ExecWake where
  | trigger : ExecWake
  | task (i : Nat) : ExecWake

/-- One step of `output_iterator`: it yields an event, continues silently
(after spawning a task), or lets an exception escape the generator. -/
inductive ExecStepResult where
  | yield (ev : Json) (st : ExecState) : ExecStepResult
  | skip (st : ExecState) : ExecStepResult
  | raise (e : PyErr) : ExecStepResult

/-- One iteration of the `output_iterator` wait loop. On a trigger
completion: reset the future, dispatch via `_create_tool_call_task`,
yielding an error-tagged event on `ValueError`; any other exception
propagates. On a task completion: `task.result()` yields the event, or
re-raises the exception the task raised. -/
def execStep (tools : List (String × Tool)) (st : ExecState) :
    ExecWake → ExecStepResult
  | .trigger =>
    match st.triggerFuture with
    | none => .skip st
    | some tc =>
      let st1 : ExecState := { triggerFuture := none, inflight := st.inflight }
      match createToolCallTask tools tc with
      | .ok outcome => .skip { st1 with inflight := st1.inflight ++ [outcome] }
      | .error (.valueError msg) =>
        match subscript tc "call_id" with
        | .ok cid => .yield (errorResultEvent cid msg) st1
        | .error e => .raise e
      | .error e => .raise e
  | .task i =>
    match st.inflight.get? i with
    | none => .skip st
    | some outcome =>
      let st1 : ExecState :=
        { triggerFuture := st.triggerFuture, inflight := st.inflight.eraseIdx i }
      match outcome with
      | .ok ev => .yield ev st1
      | .error e => .raise e

/-- The executor state a step continues with, when the iterator survives the
step. -/
def stepState : ExecStepResult → Option ExecState
  | .yield _ st => some st
  | .skip st => some st
  | .raise _ => none

/-- The set `EVENTS_TO_IGNORE` of backend event types handled as no-ops. -/
def EVENTS_TO_IGNORE : List String :=
  ["response.function_call_arguments.delta",
   "rate_limits.updated",
   "response.audio_transcript.delta",
   "response.created",
   "response.content_part.added",
   "response.content_part.done",
   "conversation.item.created",
   "response.audio.done",
   "session.created",
   "session.updated",
   "response.done",
   "response.output_item.done"]

/-- Backend event types the `output_speaker` branch handles explicitly
(including the two print-only handlers). -/
def handledSpeakerTypes : List String :=
  ["response.audio.delta",
   "response.audio_buffer.speech_started",
   "error",
   "response.function_call_arguments.done",
   "response.audio_transcript.done",
   "conversation.item.input_audio_transcription.completed",
   "response.text.done",
   "input_audio_buffer.speech_started"]

/-- The conversation-item-create event the orchestrator builds around a
plain-text input (`json.JSONDecodeError` branch of `aconnect`). -/
def textInputEvent (s : String) : Json :=
  .obj [("type", .str "conversation.item.create"),
        ("item", .obj
          [("id", .str "text_input"),
           ("type", .str "message"),
           ("role", .str "user"),
           ("content", .arr [.obj [("type", .str "input_text"), ("text", .str s)]])])]

/-- The `response.create` event sent after a plain-text input. -/
def textResponseCreate : Json :=
  .obj [("type", .str "response.create"),
        ("response", .obj
          [("modalities", .arr [.str "text"]),
           ("instructions", .str "Please respond concisely.")])]

/-- The bare `response.create` event sent after forwarding a tool output. -/
def emptyResponseCreate : Json :=
  .obj [("type", .str "response.create"), ("response", .obj [])]

/-- Origin tags of the three merged streams in `aconnect`. -/
inductive MergeKey where
  | input_mic : MergeKey
  | output_speaker : MergeKey
  | tool_outputs : MergeKey

/-- An item of a merged stream before the decode step: user input arrives as
a raw string, backend and tool-output items as decoded dicts. -/
inductive RawDatum where
  | str (s : String) : RawDatum
  | json (j : Json) : RawDatum

/-- Observable side effects of handling one merged event: the messages sent
to the backend via `model_send` and the chunks sent to the output sink via
`send_output_chunk`, each in emission order. -/
structure StepEffects where
  modelSends : List Json
  sinkWrites : List String

/-- The return-direct passthrough of the `tool_outputs` branch: decode the
output string, and when it is a dict with a truthy `return_direct`, the raw
output string goes to the sink; every exception inside the `try` block
(decode failure, `json.loads` on a non-string) is swallowed. -/
def directWrites (outputVal : Json) : List String :=
  match outputVal with
  | .str os =>
    match jsonParse os with
    | some (.obj ofs) =>
      if ((alistLookup "return_direct" ofs).getD (.bool false)).truthy then [os] else []
    | _ => []
  | _ => []

/-- The chunk written to the sink for a `response.text.done` payload,
`data.get("text", "")`. -/
def jsonChunk : Json → String
  | .str s => s
  | v => Json.dumps v

/-- The `tool_outputs` branch of the `aconnect` routing loop: forward the
result event and a bare `response.create` to the backend, then run the
return-direct passthrough check. The dict accesses after the sends can
still raise. -/
def toolOutputRoute (exec : ExecState) (data : Json) :
    Except PyErr (ExecState × StepEffects) :=
  match subscript data "type" with
  | .error e => .error e
  | .ok t =>
    match t with
    | .str s =>
      if s = "conversation.item.create" then
        match subscript data "item" with
        | .error e => .error e
        | .ok itemJ =>
          match dictGet itemJ "output" (.str "") with
          | .error e => .error e
          | .ok outputVal =>
            .ok (exec, ⟨[data, emptyResponseCreate], directWrites outputVal⟩)
      else .ok (exec, ⟨[data, emptyResponseCreate], []⟩)
    | _ => .ok (exec, ⟨[data, emptyResponseCreate], []⟩)

/-- The `output_speaker` branch of the `aconnect` routing loop: dispatch on
the backend event's type string, with the `elif` chain in source order and a
print-only default for unrecognized types. -/
def speakerRoute (exec : ExecState) (data : Json) :
    Except PyErr (ExecState × StepEffects) :=
  match subscript data "type" with
  | .error e => .error e
  | .ok t =>
    match t with
    | .str s =>
      if s = "response.audio.delta" then .ok (exec, ⟨[], [Json.dumps data]⟩)
      else if s = "response.audio_buffer.speech_started" then
        .ok (exec, ⟨[], [Json.dumps data]⟩)
      else if s = "error" then .ok (exec, ⟨[], []⟩)
      else if s = "response.function_call_arguments.done" then
        match add_tool_call exec data with
        | .error e => .error e
        | .ok exec2 => .ok (exec2, ⟨[], []⟩)
      else if s = "response.audio_transcript.done" then
        match subscript data "transcript" with
        | .error e => .error e
        | .ok _ => .ok (exec, ⟨[], []⟩)
      else if s = "conversation.item.input_audio_transcription.completed" then
        match subscript data "transcript" with
        | .error e => .error e
        | .ok _ => .ok (exec, ⟨[], []⟩)
      else if s = "response.text.done" then
        match dictGet data "text" (.str "") with
        | .error e => .error e
        | .ok v => .ok (exec, ⟨[], [jsonChunk v]⟩)
      else if s ∈ EVENTS_TO_IGNORE then .ok (exec, ⟨[], []⟩)
      else if s = "input_audio_buffer.speech_started" then .ok (exec, ⟨[], []⟩)
      else .ok (exec, ⟨[], []⟩)
    | _ => .ok (exec, ⟨[], []⟩)

/-- Routing of one merged event after the decode step succeeded (or the
datum already was a dict), keyed by origin. `input_mic` events are forwarded
verbatim, after the `data["type"]` read for the diagnostic print. -/
def routeDecoded (exec : ExecState) (key : MergeKey) (data : Json) :
    Except PyErr (ExecState × StepEffects) :=
  match key with
  | .input_mic =>
    match subscript data "type" with
    | .error e => .error e
    | .ok _ => .ok (exec, ⟨[data], []⟩)
  | .tool_outputs => toolOutputRoute exec data
  | .output_speaker => speakerRoute exec data

/-- One iteration of the `aconnect` merged event loop on a single tagged
item: the `json.loads` attempt, the plain-text reclassification to the
`text` branch (wrap as a user message, then request a concise response),
and the per-origin routing. An `.error` result is an exception escaping the
loop body, terminating the session. -/
def orchestratorStep (exec : ExecState) :
    MergeKey × RawDatum → Except PyErr (ExecState × StepEffects)
  | (key, .json j) => routeDecoded exec key j
  | (key, .str s) =>
    match jsonParse s with
    | some j => routeDecoded exec key j
    | none => .ok (exec, ⟨[textInputEvent s, textResponseCreate], []⟩)

/-- The `call_id` carried by a tool result event. -/
def eventCallId (ev : Json) : Option Json :=
  (ev.getField "item").bind (fun it => it.getField "call_id")

/-- The output string carried by a tool result event. -/
def eventOutputStr (ev : Json) : Option String :=
  match (ev.getField "item").bind (fun it => it.getField "output") with
  | some (.str s) => some s
  | _ => none

/-- Modelled from the spec: `amerge` (in `langchain_openai_voice/utils.py`,
which is absent from the sources; only its import and call site appear).
Spec 4.2: combine a fixed mapping of origin tags to asynchronous sources
into one tagged sequence, keeping one pending next-item task per live
source, yielding whichever is ready first (scheduler-dependent), dropping a
source when exhausted, and terminating when all sources are exhausted.
`totalRemaining` is the number of items left across all sources. -/
def totalRemaining {α : Type} (srcs : List (String × List α)) : Nat :=
  (srcs.map (fun p => p.2.length)).sum

/-- Modelled from the spec: whether source `j` is still live (not yet
exhausted), so that the merge still holds a pending task for it. -/
def isLiveAt {α : Type} (srcs : List (String × List α)) (j : Nat) : Bool :=
  match srcs.get? j with
  | some p => !p.2.isEmpty
  | none => false

/-- Modelled from the spec: indices of the live sources, the merge's wait
set. -/
def liveIdxs {α : Type} (srcs : List (String × List α)) : List Nat :=
  (List.range srcs.length).filter (isLiveAt srcs)

/-- Modelled from the spec: the merge loop. `sched` resolves each round's
first-ready race by picking one member of the wait set; the chosen live
source emits its next item tagged with its origin and is replaced by its
remainder. Fuel bounds the rounds; `amerge` supplies exactly
`totalRemaining` fuel. -/
def mergeRun {α : Type} :
    Nat → (Nat → Nat) → Nat → List (String × List α) → List (String × α)
  | 0, _, _, _ => []
  | fuel + 1, sched, step, srcs =>
    match liveIdxs srcs with
    | [] => []
    | j0 :: rest =>
      match srcs.get? ((j0 :: rest).getD (sched step % (j0 :: rest).length) j0) with
      | some (tag, x :: xs) =>
        (tag, x) :: mergeRun fuel sched (step + 1)
          (srcs.set ((j0 :: rest).getD (sched step % (j0 :: rest).length) j0)
            (tag, xs))
      | _ => []

/-- Modelled from the spec: the merged sequence of finite sources under a
given scheduler. -/
def amerge {α : Type} (sched : Nat → Nat) (srcs : List (String × List α)) :
    List (String × α) :=
  mergeRun (totalRemaining srcs) sched 0 srcs

/-- After a step of the executor loop that the iterator survives, the
continuation state has a fresh trigger slot and a new `add_tool_call`
succeeds. -/
def armAfter (r : ExecStepResult) (tc2 : Json) : Prop :=
  match stepState r with
  | some s2 =>
    s2.triggerFuture = none ∧
      add_tool_call s2 tc2 = .ok { s2 with triggerFuture := some tc2 }
  | none => True

/-- A tool whose invocation raises an exception with message `boom`. -/
def boomTool : Tool := ⟨fun _ => .error "boom"⟩

def c1Tools : List (String × Tool) := [("boom", boomTool)]

def c1Call : Json :=
  .obj [("name", .str "boom"), ("arguments", .str "\x7b\x7d"),
        ("call_id", .str "call_1")]

def c1StA : ExecState := ⟨some c1Call, []⟩

def c1StB : ExecState := ⟨none, [.error (.toolExc "boom")]⟩

def c2Exec : ExecState := ⟨some (Json.str "pending"), []⟩

def c2Event : Json := .obj [("type", .str "response.function_call_arguments.done")]

def c3St : ExecState := ⟨some (Json.str "t0"), []⟩

def c4Call : Json :=
  .obj [("name", .str "nope"), ("arguments", .str "\x7b\x7d"),
        ("call_id", .str "call_4")]

def c4St : ExecState := ⟨some c4Call, []⟩

def okTool : Tool := ⟨fun _ => .ok (.jsonVal (.str "fine"))⟩

def c4Tools : List (String × Tool) := [("echo", okTool)]

def c6Out : String := "\x7b\"return_direct\": true, \"value\": \"X\"\x7d"

def c6Event : Json := toolResultEvent (.str "call_6") c6Out

def c8Event : Json := .obj [("type", .str "totally.new.event")]

def c10Out : String := "\x7b\"return_direct\": 1\x7d"

def c10Event : Json := toolResultEvent (.str "call_10") c10Out

def emptyExec : ExecState := ⟨none, []⟩

/-- Claim C3: a second `add_tool_call` issued while an armed call is still
pending fails with the `ValueError` conflict, and after the dispatch loop
consumes the armed call (in every surviving branch of the trigger step) the
slot is reset and a new `add_tool_call` succeeds. -/
theorem c3_single_flight (tools : List (String × Tool)) (st : ExecState)
    (tc0 tc1 tc2 : Json) (h : st.triggerFuture = some tc0) :
    add_tool_call st tc1 = .error (.valueError conflictMsg) ∧
      armAfter (execStep tools st .trigger) tc2 := by
  constructor
  · simp [add_tool_call, h]
  · simp only [execStep, h]
    cases hc : createToolCallTask tools tc0 with
    | ok outcome => simp [armAfter, stepState, add_tool_call]
    | error e =>
      cases e with
      | valueError msg =>
        cases hcid : subscript tc0 "call_id" with
        | ok cid => simp [armAfter, stepState, add_tool_call]
        | error e2 => simp [armAfter, stepState]
      | keyError k => simp [armAfter, stepState]
      | typeError m => simp [armAfter, stepState]
      | attributeError m => simp [armAfter, stepState]
      | toolExc m => simp [armAfter, stepState]

/-- Witness for C3 at a concrete armed state. -/
theorem c3_single_flight_witness :
    c3St.triggerFuture = some (Json.str "t0") ∧
      (add_tool_call c3St (Json.str "t1") = .error (.valueError conflictMsg) ∧
        armAfter (execStep [] c3St .trigger) (Json.str "t2")) :=
  ⟨rfl, c3_single_flight [] c3St (Json.str "t0") (Json.str "t1") (Json.str "t2") rfl⟩

/-- Claim C4: an armed call whose tool name is unregistered, or whose raw
argument payload is not decodable JSON, makes the executor yield an
error-tagged result event carrying the armed call's `call_id` and an
`Error:` output, with the iterator continuing on a reset state. -/
theorem c4_bad_tool_call_yields_error (tools : List (String × Tool))
    (st : ExecState) (tc nm cid : Json)
    (h : st.triggerFuture = some tc)
    (hn : subscript tc "name" = .ok nm)
    (hcid : subscript tc "call_id" = .ok cid)
    (hbad : (match nm with | .str n => alistLookup n tools | _ => none) = none ∨
      ∃ argstr, subscript tc "arguments" = .ok (.str argstr) ∧
        jsonParse argstr = none) :
    ∃ emsg,
      execStep tools st .trigger =
          .yield (errorResultEvent cid emsg) ⟨none, st.inflight⟩ ∧
        eventCallId (errorResultEvent cid emsg) = some cid ∧
        eventOutputStr (errorResultEvent cid emsg) = some ("Error: " ++ emsg) := by
  have hev : ∀ emsg, eventCallId (errorResultEvent cid emsg) = some cid ∧
      eventOutputStr (errorResultEvent cid emsg) = some ("Error: " ++ emsg) := by
    intro emsg
    constructor
    · simp [eventCallId, errorResultEvent, toolResultEvent, Json.getField, alistLookup]
    · simp [eventOutputStr, errorResultEvent, toolResultEvent, Json.getField, alistLookup]
  cases hl : (match nm with | .str n => alistLookup n tools | _ => none) with
  | none =>
    refine ⟨notFoundMsg nm tools, ?_, hev _⟩
    simp only [execStep, h, createToolCallTask, hn, hl, hcid]
  | some tool =>
    rcases hbad with hbad | ⟨argstr, ha, hp⟩
    · exact absurd hl (by simp [hbad])
    · refine ⟨parseFailMsg argstr, ?_, hev _⟩
      simp only [execStep, h, createToolCallTask, hn, hl, ha, hp, hcid]

/-- Witness for C4 at a concrete armed call naming an unregistered tool. -/
theorem c4_bad_tool_call_witness :
    c4St.triggerFuture = some c4Call ∧
      subscript c4Call "name" = .ok (.str "nope") ∧
      subscript c4Call "call_id" = .ok (.str "call_4") ∧
      ∃ emsg,
        execStep c4Tools c4St .trigger =
            .yield (errorResultEvent (.str "call_4") emsg) ⟨none, c4St.inflight⟩ ∧
          eventCallId (errorResultEvent (.str "call_4") emsg) = some (.str "call_4") ∧
          eventOutputStr (errorResultEvent (.str "call_4") emsg) =
            some ("Error: " ++ emsg) :=
  ⟨rfl, rfl, rfl,
    c4_bad_tool_call_yields_error c4Tools c4St c4Call (.str "nope") (.str "call_4")
      rfl rfl rfl (Or.inl rfl)⟩

/-- Claim C1 counterexample: a registered tool whose invocation raises is
dispatched normally, but when its task completes the executor step re-raises
the exception out of the result stream instead of yielding an error-tagged
event for the call. -/
theorem c1_counterexample :
    execStep c1Tools c1StA .trigger = .skip c1StB ∧
      execStep c1Tools c1StB (.task 0) = .raise (.toolExc "boom") :=
  ⟨rfl, rfl⟩

/-- Claim C1 as amended: an exception raised during the tool capability's
async invocation is re-raised by `task.result()` and propagates out of the
executor's result iterator (only dispatch-time `ValueError`s become
error-tagged results). -/
theorem c1_amended (tools : List (String × Tool)) (st : ExecState) (i : Nat)
    (e : PyErr) (h : st.inflight.get? i = some (.error e)) :
    execStep tools st (.task i) = .raise e := by
  have h2 : st.inflight[i]? = some (Except.error e) := by
    rw [← List.get?_eq_getElem?]; exact h
  simp [execStep, h2]

/-- Witness for the amended C1 at a concrete failed task. -/
theorem c1_amended_witness :
    c1StB.inflight.get? 0 = some (.error (.toolExc "boom")) ∧
      execStep c1Tools c1StB (.task 0) = .raise (.toolExc "boom") :=
  ⟨rfl, c1_amended c1Tools c1StB 0 (.toolExc "boom") rfl⟩

/-- Claim C2 counterexample: with an armed call still pending, handling a
backend `response.function_call_arguments.done` event makes the orchestrator
step raise the conflict `ValueError` (terminating the session loop) instead
of sending an error-tagged tool result. -/
theorem c2_counterexample :
    orchestratorStep c2Exec (.output_speaker, .json c2Event) =
      .error (.valueError "Tool call adding already in progress") := rfl

/-- Claim C2 as amended: a `ConflictError` raised by `add_tool_call` while a
previously armed call is undispatched propagates out of the merged event
loop as an uncaught exception, terminating the session, and no error-tagged
tool result is produced. -/
theorem c2_amended (exec : ExecState) (d tc0 : Json)
    (hbusy : exec.triggerFuture = some tc0)
    (ht : subscript d "type" = .ok (.str "response.function_call_arguments.done")) :
    orchestratorStep exec (.output_speaker, .json d) =
      .error (.valueError conflictMsg) := by
  simp [orchestratorStep, routeDecoded, speakerRoute, ht, add_tool_call, hbusy]

/-- Witness for the amended C2 at a concrete busy executor. -/
theorem c2_amended_witness :
    c2Exec.triggerFuture = some (Json.str "pending") ∧
      subscript c2Event "type" = .ok (.str "response.function_call_arguments.done") ∧
      orchestratorStep c2Exec (.output_speaker, .json c2Event) =
        .error (.valueError conflictMsg) :=
  ⟨rfl, rfl, c2_amended c2Exec c2Event (Json.str "pending") rfl rfl⟩

/-- Claim C5: a plain-text input item (a string `json.loads` rejects) makes
the orchestrator send the wrapping conversation-item-create event and then
the concise-reply `response.create` event to the backend, in that order,
with no sink write and no executor interaction. -/
theorem c5_plain_text_input (exec : ExecState) (s : String)
    (h : jsonParse s = none) :
    orchestratorStep exec (.input_mic, .str s) =
      .ok (exec, ⟨[textInputEvent s, textResponseCreate], []⟩) := by
  simp [orchestratorStep, h]

/-- Witness for C5 at the concrete input `hello`. -/
theorem c5_plain_text_witness :
    jsonParse "hello" = none ∧
      orchestratorStep emptyExec (.input_mic, .str "hello") =
        .ok (emptyExec, ⟨[textInputEvent "hello", textResponseCreate], []⟩) :=
  ⟨rfl, c5_plain_text_input emptyExec "hello" rfl⟩

/-- Claim C6: a consumed tool result event is forwarded to the backend
followed by a bare `response.create`, and when its output string decodes to
an object whose `return_direct` field is `true`, the raw output string is
additionally written to the output sink. -/
theorem c6_return_direct (exec : ExecState) (d : Json)
    (fs ofs : List (String × Json)) (os : String)
    (ht : subscript d "type" = .ok (.str "conversation.item.create"))
    (hi : subscript d "item" = .ok (.obj fs))
    (ho : alistLookup "output" fs = some (.str os))
    (hd : jsonParse os = some (.obj ofs))
    (hrd : alistLookup "return_direct" ofs = some (.bool true)) :
    orchestratorStep exec (.tool_outputs, .json d) =
      .ok (exec, ⟨[d, emptyResponseCreate], [os]⟩) := by
  simp [orchestratorStep, routeDecoded, toolOutputRoute, ht, hi, dictGet, ho,
    directWrites, hd, hrd, Json.truthy]

/-- Witness for C6 at a concrete result whose output carries
`return_direct: true`. -/
theorem c6_return_direct_witness :
    subscript c6Event "type" = .ok (.str "conversation.item.create") ∧
      jsonParse c6Out =
        some (.obj [("return_direct", .bool true), ("value", .str "X")]) ∧
      orchestratorStep emptyExec (.tool_outputs, .json c6Event) =
        .ok (emptyExec, ⟨[c6Event, emptyResponseCreate], [c6Out]⟩) :=
  ⟨rfl, rfl,
    c6_return_direct emptyExec c6Event
      [("id", .str "call_6"), ("call_id", .str "call_6"),
       ("type", .str "function_call_output"), ("output", .str c6Out)]
      [("return_direct", .bool true), ("value", .str "X")] c6Out
      rfl rfl rfl rfl rfl⟩

/-- Claim C8: a backend event whose type string is neither explicitly
handled nor in `EVENTS_TO_IGNORE` reaches the print-only default arm: the
step succeeds with no sends, no sink writes and an unchanged executor, so
the merged loop keeps processing. -/
theorem c8_unrecognized_event (exec : ExecState) (d : Json) (t : String)
    (ht : subscript d "type" = .ok (.str t))
    (h1 : t ∉ handledSpeakerTypes)
    (h2 : t ∉ EVENTS_TO_IGNORE) :
    orchestratorStep exec (.output_speaker, .json d) = .ok (exec, ⟨[], []⟩) := by
  simp only [handledSpeakerTypes, List.mem_cons, List.not_mem_nil, or_false,
    not_or] at h1
  obtain ⟨n1, n2, n3, n4, n5, n6, n7, n8⟩ := h1
  simp [orchestratorStep, routeDecoded, speakerRoute, ht, n1, n2, n3, n4, n5,
    n6, n7, n8, h2]

/-- Witness for C8 at a concrete unknown event type. -/
theorem c8_unrecognized_witness :
    subscript c8Event "type" = .ok (.str "totally.new.event") ∧
      "totally.new.event" ∉ handledSpeakerTypes ∧
      "totally.new.event" ∉ EVENTS_TO_IGNORE ∧
      orchestratorStep emptyExec (.output_speaker, .json c8Event) =
        .ok (emptyExec, ⟨[], []⟩) :=
  ⟨rfl, by decide, by decide,
    c8_unrecognized_event emptyExec c8Event "totally.new.event" rfl
      (by decide) (by decide)⟩

/-- Claim C9: an input item that is valid JSON but not an object carrying a
`type` key makes the `input_mic` routing raise on the `data["type"]` read,
so the step fails and the session terminates. -/
theorem c9_json_without_type_raises (exec : ExecState) (s : String) (j : Json)
    (e : PyErr) (hp : jsonParse s = some j)
    (ht : subscript j "type" = .error e) :
    orchestratorStep exec (.input_mic, .str s) = .error e := by
  simp [orchestratorStep, hp, routeDecoded, ht]

/-- Witness for C9 at the concrete input `42`. -/
theorem c9_json_without_type_witness :
    jsonParse "42" = some (.num 42) ∧
      subscript (.num 42) "type" = .error (.typeError "object is not subscriptable") ∧
      orchestratorStep emptyExec (.input_mic, .str "42") =
        .error (.typeError "object is not subscriptable") :=
  ⟨rfl, rfl,
    c9_json_without_type_raises emptyExec "42" (.num 42)
      (.typeError "object is not subscriptable") rfl rfl⟩

/-- Claim C10 counterexample: a tool result whose output decodes to
`return_direct: 1` has no `true` `return_direct` field, yet the raw output
string is written to the sink (Python truthiness, not equality with `true`,
guards the passthrough). -/
theorem c10_counterexample :
    jsonParse c10Out = some (.obj [("return_direct", .num 1)]) ∧
      orchestratorStep emptyExec (.tool_outputs, .json c10Event) =
        .ok (emptyExec, ⟨[c10Event, emptyResponseCreate], [c10Out]⟩) :=
  ⟨rfl, rfl⟩

/-- Claim C10 as amended: the passthrough check is silently best-effort with
Python truthiness: when the output string is not valid JSON, or decodes to a
non-object, or its `return_direct` field is falsy (absent, `null`, `false`,
`0`, empty string/array/object), no sink write occurs and no error is
raised, while the backend forward and the follow-up `response.create` are
still sent; a truthy non-boolean field also triggers the write. -/
theorem c10_amended (exec : ExecState) (d : Json) (fs : List (String × Json))
    (os : String)
    (ht : subscript d "type" = .ok (.str "conversation.item.create"))
    (hi : subscript d "item" = .ok (.obj fs))
    (ho : alistLookup "output" fs = some (.str os))
    (hfalsy : jsonParse os = none ∨
      (∃ v, jsonParse os = some v ∧ v.isObj = false) ∨
      (∃ ofs, jsonParse os = some (.obj ofs) ∧
        ((alistLookup "return_direct" ofs).getD (.bool false)).truthy = false)) :
    orchestratorStep exec (.tool_outputs, .json d) =
      .ok (exec, ⟨[d, emptyResponseCreate], []⟩) := by
  have hw : directWrites (.str os) = [] := by
    rcases hfalsy with hp | ⟨v, hp, hv⟩ | ⟨ofs, hp, hf⟩
    · simp [directWrites, hp]
    · cases v with
      | obj ofs => simp [Json.isObj] at hv
      | null => simp [directWrites, hp]
      | bool b => simp [directWrites, hp]
      | num n => simp [directWrites, hp]
      | str s2 => simp [directWrites, hp]
      | arr xs => simp [directWrites, hp]
    · simp [directWrites, hp, hf]
  simp [orchestratorStep, routeDecoded, toolOutputRoute, ht, hi, dictGet, ho, hw]

/-- Witness for the amended C10 at a concrete undecodable output. -/
theorem c10_amended_witness :
    jsonParse "not json" = none ∧
      orchestratorStep emptyExec
          (.tool_outputs, .json (toolResultEvent (.str "call_n") "not json")) =
        .ok (emptyExec,
          ⟨[toolResultEvent (.str "call_n") "not json", emptyResponseCreate], []⟩) :=
  ⟨rfl,
    c10_amended emptyExec (toolResultEvent (.str "call_n") "not json")
      [("id", .str "call_n"), ("call_id", .str "call_n"),
       ("type", .str "function_call_output"), ("output", .str "not json")]
      "not json" rfl rfl rfl (Or.inl rfl)⟩

/-- A list of naturals with nonzero sum has a nonzero member. -/
theorem sum_ne_zero_mem : ∀ {l : List Nat}, l.sum ≠ 0 → ∃ x ∈ l, x ≠ 0 := by
  intro l
  induction l with
  | nil => intro h; simp at h
  | cons a l ih =>
    intro h
    by_cases ha : a = 0
    · subst ha
      simp only [List.sum_cons, Nat.zero_add] at h
      obtain ⟨x, hx, hx0⟩ := ih h
      exact ⟨x, List.mem_cons_of_mem _ hx, hx0⟩
    · exact ⟨a, List.mem_cons_self _ _, ha⟩

/-- When the merge wait set is empty, every source is exhausted. -/
theorem liveIdxs_nil_total {α : Type} {srcs : List (String × List α)}
    (h : liveIdxs srcs = []) : totalRemaining srcs = 0 := by
  by_contra htot
  obtain ⟨x, hx, hx0⟩ := sum_ne_zero_mem htot
  obtain ⟨p, hp, hpl⟩ := List.mem_map.mp hx
  obtain ⟨n, hn⟩ := List.mem_iff_get?.mp hp
  have hlt : n < srcs.length := (List.get?_eq_some.mp hn).1
  have hne : p.2.isEmpty = false := by
    cases hp2 : p.2 with
    | nil => rw [hp2] at hpl; simp at hpl; exact absurd hpl.symm hx0
    | cons y ys => simp
  have hlive : isLiveAt srcs n = true := by
    unfold isLiveAt
    rw [hn]
    simp [hne]
  have hmem : n ∈ liveIdxs srcs :=
    List.mem_filter.mpr ⟨List.mem_range.mpr hlt, hlive⟩
  rw [h] at hmem
  simp at hmem

/-- A member of the wait set indexes a source with at least one item left. -/
theorem live_get {α : Type} {srcs : List (String × List α)} {j : Nat}
    (h : j ∈ liveIdxs srcs) : ∃ tag x xs, srcs.get? j = some (tag, x :: xs) := by
  have hl := (List.mem_filter.mp h).2
  unfold isLiveAt at hl
  cases hg : srcs.get? j with
  | none => rw [hg] at hl; simp at hl
  | some p =>
    obtain ⟨tag, l⟩ := p
    rw [hg] at hl
    cases l with
    | nil => simp at hl
    | cons x xs => exact ⟨tag, x, xs, rfl⟩

/-- getD stays in the list when the default is a member. -/
theorem getD_mem_of_default_mem {β : Type} (l : List β) (i : Nat) (d : β)
    (hd : d ∈ l) : l.getD i d ∈ l := by
  rw [List.getD_eq_get?]
  cases hg : l.get? i with
  | none => simpa using hd
  | some a =>
    have ha : a ∈ l := by
      obtain ⟨hlt, hget⟩ := List.get?_eq_some.mp hg
      rw [← hget]
      exact List.get_mem l i hlt
    simpa using ha

/-- Consuming one item of a live source decrements the total remaining. -/
theorem total_set {α : Type} :
    ∀ (srcs : List (String × List α)) (j : Nat) (tag : String) (x : α)
      (xs : List α),
      srcs.get? j = some (tag, x :: xs) →
      totalRemaining (srcs.set j (tag, xs)) + 1 = totalRemaining srcs := by
  intro srcs
  induction srcs with
  | nil => intro j tag x xs h; simp at h
  | cons p rest ih =>
    intro j tag x xs h
    cases j with
    | zero =>
      simp only [List.get?_cons_zero] at h
      injection h with h
      subst h
      simp [totalRemaining]
      omega
    | succ j =>
      simp only [List.get?_cons_succ] at h
      have hrec := ih j tag x xs h
      simp only [totalRemaining, List.set_cons_succ, List.map_cons,
        List.sum_cons] at hrec ⊢
      omega

/-- In-place update of a uniquely-tagged source updates exactly its lookup
entry. -/
theorem lookup_set_self {α : Type} :
    ∀ (srcs : List (String × List α)) (j : Nat) (tag : String) (l xs : List α),
      srcs.get? j = some (tag, l) → (srcs.map Prod.fst).Nodup →
      alistLookup tag (srcs.set j (tag, xs)) = some xs ∧
        alistLookup tag srcs = some l := by
  intro srcs
  induction srcs with
  | nil => intro j tag l xs h _; simp at h
  | cons p rest ih =>
    intro j tag l xs h hnd
    obtain ⟨p1, p2⟩ := p
    cases j with
    | zero =>
      simp only [List.get?_cons_zero] at h
      injection h with h
      injection h with h1 h2
      subst h1
      subst h2
      simp [alistLookup]
    | succ j =>
      simp only [List.get?_cons_succ] at h
      simp only [List.map_cons, List.nodup_cons] at hnd
      have htag : p1 ≠ tag := by
        intro he
        apply hnd.1
        have hmem : (tag, l) ∈ rest := by
          obtain ⟨hlt, hget⟩ := List.get?_eq_some.mp h
          rw [← hget]
          exact List.get_mem _ _ _
        rw [he]
        exact List.mem_map.mpr ⟨(tag, l), hmem, rfl⟩
      have hrec := ih j tag l xs h hnd.2
      simp only [List.set_cons_succ, alistLookup, if_neg htag]
      exact hrec

/-- In-place update of one source leaves other tags' lookups unchanged. -/
theorem lookup_set_other {α : Type} :
    ∀ (srcs : List (String × List α)) (j : Nat) (tag t : String)
      (l xs : List α),
      srcs.get? j = some (tag, l) → t ≠ tag →
      alistLookup t (srcs.set j (tag, xs)) = alistLookup t srcs := by
  intro srcs
  induction srcs with
  | nil => intro j tag t l xs h _; simp at h
  | cons p rest ih =>
    intro j tag t l xs h hne
    obtain ⟨p1, p2⟩ := p
    cases j with
    | zero =>
      simp only [List.get?_cons_zero] at h
      injection h with h
      injection h with h1 h2
      subst h1
      have : ¬ (p1 = t) := fun he => hne (he.symm)
      simp only [List.set_cons_zero, alistLookup, if_neg this]
    | succ j =>
      simp only [List.get?_cons_succ] at h
      simp only [List.set_cons_succ, alistLookup]
      by_cases he : p1 = t
      · simp [he]
      · simp only [if_neg he]
        exact ih j tag t l xs h hne

/-- In-place update of a source keeps the tag list. -/
theorem map_fst_set {α : Type} :
    ∀ (srcs : List (String × List α)) (j : Nat) (tag : String) (l xs : List α),
      srcs.get? j = some (tag, l) →
      (srcs.set j (tag, xs)).map Prod.fst = srcs.map Prod.fst := by
  intro srcs
  induction srcs with
  | nil => intro j tag l xs h; simp at h
  | cons p rest ih =>
    intro j tag l xs h
    obtain ⟨p1, p2⟩ := p
    cases j with
    | zero =>
      simp only [List.get?_cons_zero] at h
      injection h with h
      injection h with h1 h2
      subst h1
      simp
    | succ j =>
      simp only [List.get?_cons_succ] at h
      simp only [List.set_cons_succ, List.map_cons]
      rw [ih j tag l xs h]

/-- When nothing remains, every tag's source list is empty. -/
theorem lookup_total_zero {α : Type} :
    ∀ (srcs : List (String × List α)) (t : String),
      totalRemaining srcs = 0 → (alistLookup t srcs).getD [] = [] := by
  intro srcs
  induction srcs with
  | nil => intro t h; simp [alistLookup]
  | cons p rest ih =>
    intro t h
    obtain ⟨p1, p2⟩ := p
    simp only [totalRemaining, List.map_cons, List.sum_cons] at h
    have h1 : p2.length = 0 := by omega
    have h2 : totalRemaining rest = 0 := by
      simp only [totalRemaining]
      omega
    simp only [alistLookup]
    by_cases he : p1 = t
    · rw [if_pos he]
      simp [List.length_eq_zero.mp h1]
    · rw [if_neg he]
      exact ih t h2

/-- The merge loop, run with fuel covering the total remaining item count,
emits exactly one tagged item per remaining source item and projects, per
tag, to exactly that source's list in its own order. -/
theorem mergeRun_spec {α : Type} (fuel : Nat) :
    ∀ (sched : Nat → Nat) (step : Nat) (srcs : List (String × List α)),
      totalRemaining srcs ≤ fuel → (srcs.map Prod.fst).Nodup →
      (mergeRun fuel sched step srcs).length = totalRemaining srcs ∧
        ∀ t, ((mergeRun fuel sched step srcs).filter
            (fun p => decide (p.1 = t))).map Prod.snd =
          (alistLookup t srcs).getD [] := by
  induction fuel with
  | zero =>
    intro sched step srcs h hn
    have h0 : totalRemaining srcs = 0 := Nat.le_zero.mp h
    refine ⟨?_, ?_⟩
    · simp [mergeRun, h0]
    · intro t
      simp [mergeRun, lookup_total_zero srcs t h0]
  | succ fuel IH =>
    intro sched step srcs h hn
    cases hl : liveIdxs srcs with
    | nil =>
      have h0 : totalRemaining srcs = 0 := liveIdxs_nil_total hl
      refine ⟨?_, ?_⟩
      · simp [mergeRun, hl, h0]
      · intro t
        simp [mergeRun, hl, lookup_total_zero srcs t h0]
    | cons j0 rest =>
      have hmem : (j0 :: rest).getD (sched step % (j0 :: rest).length) j0 ∈
          liveIdxs srcs := by
        rw [hl]
        exact getD_mem_of_default_mem _ _ _ (List.mem_cons_self _ _)
      obtain ⟨tag, x, xs, hj⟩ := live_get hmem
      have hstep : mergeRun (fuel + 1) sched step srcs =
          (tag, x) :: mergeRun fuel sched (step + 1)
            (srcs.set ((j0 :: rest).getD (sched step % (j0 :: rest).length) j0)
              (tag, xs)) := by
        rw [mergeRun, hl]
        simp only [hj]
      set j := (j0 :: rest).getD (sched step % (j0 :: rest).length) j0 with hJ
      have htot := total_set srcs j tag x xs hj
      have hle : totalRemaining (srcs.set j (tag, xs)) ≤ fuel := by omega
      have hnd2 : ((srcs.set j (tag, xs)).map Prod.fst).Nodup := by
        rw [map_fst_set srcs j tag (x :: xs) xs hj]
        exact hn
      have hIH := IH sched (step + 1) (srcs.set j (tag, xs)) hle hnd2
      refine ⟨?_, ?_⟩
      · rw [hstep]
        simp only [List.length_cons, hIH.1]
        omega
      · intro t
        rw [hstep, List.filter_cons]
        by_cases htag : tag = t
        · have hdec : decide (((tag, x) : String × α).1 = t) = true := by
            simp [htag]
          rw [if_pos hdec]
          simp only [List.map_cons, hIH.2 t]
          have hself := lookup_set_self srcs j tag (x :: xs) xs hj hn
          rw [← htag]
          rw [hself.1, hself.2]
          simp
        · have hdec : ¬ (decide (((tag, x) : String × α).1 = t) = true) := by
            simp
            intro he
            exact htag he
          rw [if_neg hdec]
          rw [hIH.2 t]
          rw [lookup_set_other srcs j tag t (x :: xs) xs hj
            (fun he => htag he.symm)]

/-- Claim C7: for any finite tag-to-source mapping (distinct tags) and any
scheduler resolving the first-ready races, the merged sequence preserves
each source's own emission order (its per-tag projection is exactly that
source's list) and terminates after exactly the total number of items. -/
theorem c7_amerge_order_and_total {α : Type} (sched : Nat → Nat)
    (srcs : List (String × List α)) (t : String)
    (hn : (srcs.map Prod.fst).Nodup) :
    (amerge sched srcs).length = totalRemaining srcs ∧
      ((amerge sched srcs).filter (fun p => decide (p.1 = t))).map Prod.snd =
        (alistLookup t srcs).getD [] := by
  have hs := mergeRun_spec (totalRemaining srcs) sched 0 srcs le_rfl hn
  exact ⟨hs.1, hs.2 t⟩

/-- Witness for C7 at the spec's three-source example, with five items in
total. -/
theorem c7_amerge_witness :
    (([("a", ["a1", "a2"]), ("b", ["b1", "b2"]),
        ("c", ["c1"])].map (Prod.fst (β := List String))).Nodup ∧
      totalRemaining [("a", ["a1", "a2"]), ("b", ["b1", "b2"]), ("c", ["c1"])] = 5) ∧
      ((amerge (fun _ => 0)
          [("a", ["a1", "a2"]), ("b", ["b1", "b2"]), ("c", ["c1"])]).length =
        totalRemaining [("a", ["a1", "a2"]), ("b", ["b1", "b2"]), ("c", ["c1"])] ∧
      ((amerge (fun _ => 0)
          [("a", ["a1", "a2"]), ("b", ["b1", "b2"]), ("c", ["c1"])]).filter
            (fun p => decide (p.1 = "a"))).map Prod.snd =
        (alistLookup "a"
          [("a", ["a1", "a2"]), ("b", ["b1", "b2"]), ("c", ["c1"])]).getD []) :=
  ⟨⟨by decide, by decide⟩,
    c7_amerge_order_and_total (fun _ => 0)
      [("a", ["a1", "a2"]), ("b", ["b1", "b2"]), ("c", ["c1"])] "a" (by decide)⟩
